import Mathlib

/-
Shallow embedding of `branches/raft3/RaftCmdLine.py` (RAFT command-line
pipeline runner).  Python dictionaries are modelled as association lists,
Python exceptions as an explicit `Except` error channel, and every
externally observable action (stderr writes, plugin source reads and
executions, initializer/filter/processor invocations, error logging) is
recorded in an event trace so that ordering and counting properties can be
stated and proved.
-/

set_option autoImplicit false

namespace Raft

/-- Python exception values that can be raised by the embedded code.
`exc n` is an opaque exception raised by user-supplied plugin or parser
code; `nameError` models a reference to an undefined global name
(`glob` is never imported by the module); `unboundLocal` models reading a
local variable before assignment (`file_list`); `pluginLoadError` is the
wrapper error type named by the specification (it is never produced by the
code itself, which re-raises the underlying exception unchanged). -/
inductive PyErr where
  | exc (n : Nat)
  | nameError (n : String)
  | unboundLocal (n : String)
  | pluginLoadError (path : String) (cause : PyErr)
deriving DecidableEq, Repr

/-- Identifier of a concrete Python function object (a capability value). -/
abbrev FuncId := Nat

/-- Observable actions of the command-line runner, in execution order. -/
inductive Event where
  | stderrWrite (msg : String)
  | readEv (path : String)
  | execEv (path : String)
  | initCall (path : String) (file : String)
  | adaptEv (raw : Nat)
  | filterCall (f : FuncId) (cap : Nat)
  | procCall (f : FuncId) (cap : Nat)
  | logged (e : PyErr)
deriving DecidableEq, Repr

/-- An attribute found by `dir` on a plugin class instance: either a bound
method (`str(type(v)) == "<class 'method'>"`) or anything else. -/
inductive Attr where
  | method (f : FuncId)
  | nonMethod
deriving DecidableEq, Repr

/-- A top-level binding produced by executing a plugin source unit:
a class definition (with the attribute listing of its instantiated value),
a plain function, or any other value. -/
inductive Binding where
  | typeDef (attrs : List (String × Attr))
  | funcDef (f : FuncId)
  | other
deriving DecidableEq, Repr

/-- The `script_env` dictionary built by `load_script_file`.  The Python
`instance` entry starts as `False` and ends as the last instantiated class,
modelled by an `Option` holding that class's binding name. -/
structure ScriptEnv where
  filename : String
  valid : Bool
  initialized : Bool
  inst : Option String
  functions : List (String × FuncId)
deriving DecidableEq, Repr

/-- Mutable state of a `RaftCmdLine` object: the script cache `self.scripts`
(keyed by source path) and the two role lists.  In Python the role lists
hold references to the cached dictionaries; since the cache is keyed by
path and aliasing is by path, the lists are modelled as path lists. -/
structure CmdState where
  scripts : List (String × ScriptEnv)
  capture_filter_scripts : List String
  process_capture_scripts : List String
deriving DecidableEq, Repr

/-- Parsed command-line arguments (the argparse namespace). -/
structure Args where
  db : Option String
  create : Bool
  imp : Bool
  parse : Bool
  capture_filter : Option (List String)
  process_capture : Option (List String)
  raft_capture_xml : Option (List String)
  burp_log : Option (List String)
  burp_xml : Option (List String)
  burp_vuln_xml : Option (List String)
  burp_state : Option (List String)
  appscan_xml : Option (List String)
  webscarab : Option (List String)
  paros_message : Option (List String)

/-- The external world: the file system, the behaviour of plugin source
units under compile/exec, the record streams produced by the format
parsers (a finite record list plus an optional error raised while
producing the next record), the `ParseAdapter.adapt` normalization, and
the semantics of filter/processor capability functions. -/
structure World where
  fsExists : String → Bool
  readFile : String → Except PyErr Nat
  execUnit : Nat → Except PyErr (List (String × Binding))
  stream : String → String → List Nat × Option PyErr
  adapt : Nat → Nat
  filterFn : FuncId → Nat → Except PyErr Nat
  procFn : FuncId → Nat → Except PyErr Nat

/-- First-match lookup in the script cache (Python dict access). -/
def slookup (k : String) : List (String × ScriptEnv) → Option ScriptEnv
  | [] => none
  | kv :: rest => if kv.1 = k then some kv.2 else slookup k rest

/-- Replace the value stored under key `k` (Python dict item assignment on
an existing key). -/
def supdate (k : String) (v : ScriptEnv) (s : List (String × ScriptEnv)) :
    List (String × ScriptEnv) :=
  s.map fun kv => if kv.1 = k then (k, v) else kv

/-- `dict.get` on the capability map `script_env['functions']`. -/
def flookup (k : String) : List (String × FuncId) → Option FuncId
  | [] => none
  | kv :: rest => if kv.1 = k then some kv.2 else flookup k rest

/-- Python dict item assignment on the capability map: overwrite in place
when the key exists, append otherwise. -/
def dinsert (m : List (String × FuncId)) (k : String) (v : FuncId) :
    List (String × FuncId) :=
  if m.any fun kv => kv.1 = k then
    m.map fun kv => if kv.1 = k then (k, v) else kv
  else m ++ [(k, v)]

/-- `item.startswith('_')`. -/
def underscored (s : String) : Bool :=
  match s.toList with
  | c :: _ => c = '_'
  | [] => false

/-- `str.endswith(suffix)`. -/
def strEndsWith (s suf : String) : Bool :=
  List.isSuffixOf suf.toList s.toList

/-- The `dir(instance)` loop of `load_script_file`: add every
non-underscore-prefixed bound-method attribute to the capability map. -/
def collectAttrs (m : List (String × FuncId)) :
    List (String × Attr) → List (String × FuncId)
  | [] => m
  | a :: rest =>
    match a.2 with
    | .method f =>
      if underscored a.1 then collectAttrs m rest
      else collectAttrs (dinsert m a.1 f) rest
    | .nonMethod => collectAttrs m rest

/-- One step of the binding-inspection loop of `load_script_file`: a class
binding is instantiated (recorded as the new `instance`) and its public
method attributes collected; a function binding is collected under its own
name; anything else is ignored. -/
def collectBinding (acc : List (String × FuncId) × Option String)
    (b : String × Binding) : List (String × FuncId) × Option String :=
  match b.2 with
  | .typeDef attrs => (collectAttrs acc.1 attrs, some b.1)
  | .funcDef f => (dinsert acc.1 b.1 f, acc.2)
  | .other => acc

/-- The full inspection loop over the executed unit's local namespace,
returning the capability map and the last instantiated class (if any). -/
def collectFunctions (ns : List (String × Binding)) :
    List (String × FuncId) × Option String :=
  ns.foldl collectBinding ([], none)

/-- `RaftCmdLine.load_script_file`: return the cached environment when the
path was loaded before; otherwise read, compile and execute the source
unit, inspect its bindings, and cache the resulting environment.  A
compile/exec error is printed (logged) and re-raised; a read error
propagates unlogged; in both cases nothing is cached. -/
def load_script_file (w : World) (st : CmdState) (path : String) :
    CmdState × List Event × Except PyErr ScriptEnv :=
  match slookup path st.scripts with
  | some env => (st, [], .ok env)
  | none =>
    match w.readFile path with
    | .error e => (st, [.readEv path], .error e)
    | .ok code =>
      match w.execUnit code with
      | .error e => (st, [.readEv path, .execEv path, .logged e], .error e)
      | .ok ns =>
        let fns := collectFunctions ns
        let env : ScriptEnv :=
          { filename := path, valid := true, initialized := false,
            inst := fns.2, functions := fns.1 }
        ({ st with scripts := st.scripts ++ [(path, env)] },
         [.readEv path, .execEv path], .ok env)

/-- The `for filearg in arg: list.append(self.load_script_file(filearg))`
loops of `process_args`: load each path in turn, returning the loaded
prefix and the first error (which aborts the loop). -/
def load_many (w : World) (st : CmdState) :
    List String → CmdState × List Event × List String × Option PyErr
  | [] => (st, [], [], none)
  | p :: rest =>
    match load_script_file w st p with
    | (st1, evs1, .error e) => (st1, evs1, [], some e)
    | (st1, evs1, .ok _) =>
      match load_many w st1 rest with
      | (st2, evs2, ps, err) => (st2, evs1 ++ evs2, p :: ps, err)

/-- The per-file reset loop of `parse_one_file`: every cached script's
`initialized` flag is set back to `False`. -/
def resetFlags (s : List (String × ScriptEnv)) : List (String × ScriptEnv) :=
  s.map fun kv => (kv.1, { kv.2 with initialized := false })

/-- Overwrite every cached script's `initialized` flag according to `b`
(used to state that `parse_one_file` does not depend on incoming flags). -/
def setFlags (b : String → Bool) (s : List (String × ScriptEnv)) :
    List (String × ScriptEnv) :=
  s.map fun kv => (kv.1, { kv.2 with initialized := b kv.1 })

/-- The initializer step of the role-setup loops: when the script supplies
an `initialize` capability and has not yet been initialized for this file,
mark its cached environment initialized. -/
def setupStep (p : String) (env : ScriptEnv)
    (scripts : List (String × ScriptEnv)) : List (String × ScriptEnv) :=
  if (flookup "initialize" env.functions).isSome && !env.initialized then
    supdate p { env with initialized := true } scripts
  else scripts

/-- The trace of the initializer step: the `initialize(filename)` call,
when it happens. -/
def setupEvs (file p : String) (env : ScriptEnv) : List Event :=
  if (flookup "initialize" env.functions).isSome && !env.initialized then
    [.initCall p file]
  else []

/-- Append the script's role capability to the active list when present
(`if capture_filter: filters.append(capture_filter)`). -/
def capCons (o : Option FuncId) (fns : List FuncId) : List FuncId :=
  match o with
  | some f => f :: fns
  | none => fns

/-- One of the two role-setup loops of `parse_one_file`: for each
registered script (in registration order), invoke its `initialize`
capability if present and not yet invoked for this file (marking the
cached environment), then append its role capability (looked up under
`capName`) to the active list when present. -/
def setupRole (file : String) (capName : String) :
    List String → List (String × ScriptEnv) →
    List (String × ScriptEnv) × List Event × List FuncId
  | [], scripts => (scripts, [], [])
  | p :: rest, scripts =>
    match slookup p scripts with
    | none => setupRole file capName rest scripts
    | some env =>
      ((setupRole file capName rest (setupStep p env scripts)).1,
       setupEvs file p env ++
         (setupRole file capName rest (setupStep p env scripts)).2.1,
       capCons (flookup capName env.functions)
         (setupRole file capName rest (setupStep p env scripts)).2.2)

/-- The inner filter loop of `parse_one_file`: apply each active filter to
the (unchanged) adapted capture; a raised error propagates, a falsy
(zero) return sets `skip` and breaks out of the loop. -/
def runFilters (w : World) : List FuncId → Nat → List Event × Except PyErr Bool
  | [], _ => ([], .ok false)
  | f :: rest, cap =>
    match w.filterFn f cap with
    | .error e => ([.filterCall f cap], .error e)
    | .ok r =>
      if r = 0 then ([.filterCall f cap], .ok true)
      else
        match runFilters w rest cap with
        | (evs, res) => (.filterCall f cap :: evs, res)

/-- The inner processor loop of `parse_one_file`: invoke each active
processor on the same capture; return values are discarded, a raised error
propagates. -/
def runProcessors (w : World) : List FuncId → Nat → List Event × Except PyErr Unit
  | [], _ => ([], .ok ())
  | p :: rest, cap =>
    match w.procFn p cap with
    | .error e => ([.procCall p cap], .error e)
    | .ok _ =>
      match runProcessors w rest cap with
      | (evs, res) => (.procCall p cap :: evs, res)

/-- Processing of one raw record: adapt it, run the filter loop, and when
no filter vetoed the record run the processor loop. -/
def processRecord (w : World) (fil pro : List FuncId) (raw : Nat) :
    List Event × Except PyErr Unit :=
  let cap := w.adapt raw
  match runFilters w fil cap with
  | (fevs, .error e) => (.adaptEv raw :: fevs, .error e)
  | (fevs, .ok skip) =>
    if skip then (.adaptEv raw :: fevs, .ok ())
    else
      match runProcessors w pro cap with
      | (pevs, res) => (.adaptEv raw :: fevs ++ pevs, res)

/-- The record loop of `parse_one_file` over the parser's stream: records
are processed in order; the first raised error aborts the loop; after the
last record an error raised by the parser itself (while producing the next
record) propagates. -/
def runStream (w : World) (fil pro : List FuncId) :
    List Nat → Option PyErr → List Event × Except PyErr Unit
  | [], none => ([], .ok ())
  | [], some e => ([], .error e)
  | r :: rest, terr =>
    match processRecord w fil pro r with
    | (evs, .error e) => (evs, .error e)
    | (evs, .ok ()) =>
      match runStream w fil pro rest terr with
      | (evs2, res2) => (evs ++ evs2, res2)

/-- The `try`/`except` wrapper around the record loop: on error, print
(log) the exception once and re-raise it. -/
def runStreamLogged (w : World) (fil pro : List FuncId)
    (raws : List Nat) (terr : Option PyErr) : List Event × Except PyErr Unit :=
  match runStream w fil pro raws terr with
  | (evs, .error e) => (evs ++ [.logged e], .error e)
  | (evs, .ok ()) => (evs, .ok ())

/-- `RaftCmdLine.parse_one_file`: announce the file on stderr, reset every
cached script's initialization flag, set up the active filter and
processor lists (initializing each registered plugin at most once), then
stream the file's records through the filter/processor pipeline. -/
def parse_one_file (w : World) (st : CmdState) (file : String)
    (raws : List Nat) (terr : Option PyErr) :
    CmdState × List Event × Except PyErr Unit :=
  let scripts0 := resetFlags st.scripts
  match setupRole file "capture_filter" st.capture_filter_scripts scripts0 with
  | (scripts1, evF, fil) =>
    match setupRole file "process_capture" st.process_capture_scripts scripts1 with
    | (scripts2, evP, pro) =>
      match runStreamLogged w fil pro raws terr with
      | (evs, res) =>
        ({ st with scripts := scripts2 },
         .stderrWrite ("processing [" ++ file ++ "]") :: evF ++ evP ++ evs, res)

/-- The `for filename in file_list` loop: parse each expanded file in
order, aborting on the first error. -/
def parse_files (w : World) (st : CmdState) (fmt : String) :
    List String → CmdState × List Event × Except PyErr Unit
  | [] => (st, [], .ok ())
  | f :: rest =>
    match parse_one_file w st f (w.stream fmt f).1 (w.stream fmt f).2 with
    | (st1, evs1, .error e) => (st1, evs1, .error e)
    | (st1, evs1, .ok ()) =>
      match parse_files w st1 fmt rest with
      | (st2, evs2, res) => (st2, evs1 ++ evs2, res)

/-- One iteration of the `for filearg in arg` loop of
`run_parse_process_loop`, threading the Python local `file_list`
(`Option`: `none` while still unassigned).  A glob pattern evaluates
`glob.glob`, but the module never imports `glob`, so this raises a
`NameError`; a non-glob existing path assigns `file_list`; a non-glob
missing path leaves `file_list` untouched, so the subsequent `for` loop
reads a stale value or raises `UnboundLocalError`. -/
def process_filearg (w : World) (st : CmdState) (fmt : String)
    (filearg : String) (fileList : Option (List String)) :
    CmdState × List Event × Option (List String) × Option PyErr :=
  if filearg.toList.contains '*' then
    (st, [], fileList, some (.nameError "glob"))
  else
    let fl := if w.fsExists filearg then some [filearg] else fileList
    match fl with
    | none => (st, [], none, some (.unboundLocal "file_list"))
    | some files =>
      match parse_files w st fmt files with
      | (st1, evs, .error e) => (st1, evs, some files, some e)
      | (st1, evs, .ok ()) => (st1, evs, some files, none)

/-- The `for filearg in arg` loop, aborting on the first raised error. -/
def process_fileargs (w : World) (st : CmdState) (fmt : String) :
    List String → Option (List String) →
    CmdState × List Event × Option (List String) × Option PyErr
  | [], fl => (st, [], fl, none)
  | fa :: rest, fl =>
    match process_filearg w st fmt fa fl with
    | (st1, evs1, fl1, some e) => (st1, evs1, fl1, some e)
    | (st1, evs1, fl1, none) =>
      match process_fileargs w st1 fmt rest fl1 with
      | (st2, evs2, fl2, err) => (st2, evs1 ++ evs2, fl2, err)

/-- Insertion order of `FILE_PROCESSOR_DEFINTIONS` (sic). -/
def FILE_PROCESSOR_DEFINTIONS : List String :=
  ["raft_capture_xml", "burp_log", "burp_xml", "burp_vuln_xml",
   "burp_state", "appscan_xml", "webscarab", "paros_message"]

/-- `getattr(args, name)` for the format-flag destinations. -/
def formatArg (a : Args) (n : String) : Option (List String) :=
  if n = "raft_capture_xml" then a.raft_capture_xml
  else if n = "burp_log" then a.burp_log
  else if n = "burp_xml" then a.burp_xml
  else if n = "burp_vuln_xml" then a.burp_vuln_xml
  else if n = "burp_state" then a.burp_state
  else if n = "appscan_xml" then a.appscan_xml
  else if n = "webscarab" then a.webscarab
  else if n = "paros_message" then a.paros_message
  else none

/-- The outer `for name, func in FILE_PROCESSOR_DEFINTIONS.items()` loop.
The local `file_list` persists across fileargs and across formats. -/
def process_formats (w : World) (a : Args) :
    CmdState → List String → Option (List String) →
    CmdState × List Event × Option (List String) × Option PyErr
  | st, [], fl => (st, [], fl, none)
  | st, n :: rest, fl =>
    match formatArg a n with
    | none => process_formats w a st rest fl
    | some fas =>
      match process_fileargs w st n fas fl with
      | (st1, evs1, fl1, some e) => (st1, evs1, fl1, some e)
      | (st1, evs1, fl1, none) =>
        match process_formats w a st1 rest fl1 with
        | (st2, evs2, fl2, err) => (st2, evs1 ++ evs2, fl2, err)

/-- `RaftCmdLine.run_parse_process_loop`. -/
def run_parse_process_loop (w : World) (st : CmdState) (a : Args) :
    CmdState × List Event × Except PyErr Unit :=
  match process_formats w a st FILE_PROCESSOR_DEFINTIONS none with
  | (st1, evs, _, some e) => (st1, evs, .error e)
  | (st1, evs, _, none) => (st1, evs, .ok ())

/-- `RaftCmdLine.process_args`: check the database argument (appending the
`.raftdb` suffix when missing; a missing file without `--create` is
reported on stderr and the method returns `1`), then load the filter and
processor scripts, then dispatch on the selected mode.  The final return
value is `0`. -/
def process_args (w : World) (st0 : CmdState) (a : Args) :
    CmdState × List Event × Except PyErr Nat :=
  let dbBad :=
    match a.db with
    | none => false
    | some dbname =>
      let dbf := if strEndsWith dbname ".raftdb" then dbname
                 else dbname ++ ".raftdb"
      !w.fsExists dbf && !a.create
  let dbMsg :=
    match a.db with
    | none => ""
    | some dbname =>
      let dbf := if strEndsWith dbname ".raftdb" then dbname
                 else dbname ++ ".raftdb"
      "DB file [" ++ dbf ++ "] does not exist"
  if dbBad then (st0, [.stderrWrite dbMsg], .ok 1)
  else
    match load_many w { st0 with capture_filter_scripts := [] }
        (a.capture_filter.getD []) with
    | (st1, evs1, cfs, err1) =>
      let st1 := { st1 with capture_filter_scripts := cfs }
      match err1 with
      | some e => (st1, evs1, .error e)
      | none =>
        match load_many w { st1 with process_capture_scripts := [] }
            (a.process_capture.getD []) with
        | (st2, evs2, pcs, err2) =>
          let st2 := { st2 with process_capture_scripts := pcs }
          match err2 with
          | some e => (st2, evs1 ++ evs2, .error e)
          | none =>
            if a.imp then (st2, evs1 ++ evs2, .ok 0)
            else if a.parse then
              match run_parse_process_loop w st2 a with
              | (st3, evs3, .error e) => (st3, evs1 ++ evs2 ++ evs3, .error e)
              | (st3, evs3, .ok ()) => (st3, evs1 ++ evs2 ++ evs3, .ok 0)
            else
              (st2, evs1 ++ evs2 ++ [.stderrWrite "No recognized options"],
               .ok 0)

/-- The state of a fresh `RaftCmdLine()` object. -/
def initState : CmdState :=
  { scripts := [], capture_filter_scripts := [], process_capture_scripts := [] }

/-- Exit code of the process after `main`: `main` calls `process_args` and
discards its return value, so a normal return exits with code `0`; an
uncaught exception makes the interpreter exit with code `1`. -/
def mainExitCode (w : World) (a : Args) : Nat :=
  match (process_args w initState a).2.2 with
  | .ok _ => 0
  | .error _ => 1

/-- View an `Except` value as a sum, to derive decidable equality. -/
def exceptToSum {ε α : Type} : Except ε α → ε ⊕ α
  | .error e => .inl e
  | .ok a => .inr a

instance {ε α : Type} [DecidableEq ε] [DecidableEq α] :
    DecidableEq (Except ε α) := fun a b =>
  decidable_of_iff (exceptToSum a = exceptToSum b)
    (by cases a <;> cases b <;> simp [exceptToSum])

/-- Number of `initCall` events for plugin path `p` in a trace. -/
def initCount (p : String) (evs : List Event) : Nat :=
  (evs.filter fun ev => match ev with
    | .initCall q _ => q == p
    | _ => false).length

/-- Number of `logged` events in a trace. -/
def countLogged (evs : List Event) : Nat :=
  (evs.filter fun ev => match ev with
    | .logged _ => true
    | _ => false).length

/-- The `procCall` events of a trace, in order. -/
def procCallsOf (evs : List Event) : List Event :=
  evs.filter fun ev => match ev with
    | .procCall _ _ => true
    | _ => false

/-- Whether the cached script at `p` supplies an `initialize` capability. -/
def hasInitCap (s : List (String × ScriptEnv)) (p : String) : Bool :=
  match slookup p s with
  | some env => (flookup "initialize" env.functions).isSome
  | none => false

/-- Whether the cached script at `p` supplies an `initialize` capability
that has not yet run for the current file. -/
def initReady (s : List (String × ScriptEnv)) (p : String) : Bool :=
  match slookup p s with
  | some env => (flookup "initialize" env.functions).isSome && !env.initialized
  | none => false

/-- The capability map visible at path `p` (initialization flags erased). -/
def fview (s : List (String × ScriptEnv)) (p : String) :
    Option (List (String × FuncId)) :=
  (slookup p s).map ScriptEnv.functions

/-- The filter-role setup pass of `parse_one_file` (runs on the cache with
all initialization flags freshly reset). -/
def cfSetup (st : CmdState) (file : String) :
    List (String × ScriptEnv) × List Event × List FuncId :=
  setupRole file "capture_filter" st.capture_filter_scripts (resetFlags st.scripts)

/-- The processor-role setup pass of `parse_one_file` (runs on the cache
left by the filter pass). -/
def pcSetup (st : CmdState) (file : String) :
    List (String × ScriptEnv) × List Event × List FuncId :=
  setupRole file "process_capture" st.process_capture_scripts (cfSetup st file).1

/-- The active filter list built by `parse_one_file`. -/
def activeFilters (st : CmdState) (file : String) : List FuncId :=
  (cfSetup st file).2.2

/-- The active processor list built by `parse_one_file`. -/
def activeProcessors (st : CmdState) (file : String) : List FuncId :=
  (pcSetup st file).2.2

/-- A concrete pipeline world: filter 1 returns the truthy value 99,
filter 3 returns the falsy value 0, every other filter returns
capture + 1; processors always succeed. -/
def w1 : World :=
  { fsExists := fun _ => false
    readFile := fun _ => .ok 0
    execUnit := fun _ => .ok []
    stream := fun _ _ => ([1, 2, 3, 4, 5], none)
    adapt := fun r => r
    filterFn := fun f c =>
      if f = 1 then .ok 99 else if f = 3 then .ok 0 else .ok (c + 1)
    procFn := fun _ _ => .ok 0 }

/-- A world whose filters raise an exception on capture 2. -/
def w3 : World :=
  { fsExists := fun _ => false
    readFile := fun _ => .ok 0
    execUnit := fun _ => .ok []
    stream := fun _ _ => ([1, 2, 3, 4, 5], none)
    adapt := fun r => r
    filterFn := fun _ c => if c = 2 then .error (.exc 5) else .ok 1
    procFn := fun _ _ => .ok 0 }

/-- A cached filter plugin supplying only `capture_filter`. -/
def envF3 : ScriptEnv :=
  { filename := "f.py", valid := true, initialized := false, inst := none,
    functions := [("capture_filter", 1)] }

/-- A runner state with one registered capture filter. -/
def st3 : CmdState :=
  { scripts := [("f.py", envF3)], capture_filter_scripts := ["f.py"],
    process_capture_scripts := [] }

/-- A cached filter plugin supplying `capture_filter` and `initialize`. -/
def envF : ScriptEnv :=
  { filename := "f.py", valid := true, initialized := false, inst := some "Foo",
    functions := [("capture_filter", 1), ("initialize", 3)] }

/-- A cached processor plugin supplying `process_capture` and `initialize`. -/
def envP : ScriptEnv :=
  { filename := "p.py", valid := true, initialized := false, inst := none,
    functions := [("process_capture", 2), ("initialize", 4)] }

/-- A runner state with one filter and one processor plugin registered. -/
def stW : CmdState :=
  { scripts := [("f.py", envF), ("p.py", envP)],
    capture_filter_scripts := ["f.py"], process_capture_scripts := ["p.py"] }

/-- The environment cached for a plugin whose unit defines no bindings. -/
def env4 : ScriptEnv :=
  { filename := "a.py", valid := true, initialized := false, inst := none,
    functions := [] }

/-- The runner state after loading `a.py` into a fresh runner. -/
def st4 : CmdState :=
  { scripts := [("a.py", env4)], capture_filter_scripts := [],
    process_capture_scripts := [] }

/-- The trace of the file whose second record makes the filter raise. -/
def c3evs : List Event :=
  [Event.stderrWrite "processing [a.xml]", Event.adaptEv 1,
   Event.filterCall 1 1, Event.adaptEv 2, Event.filterCall 1 2,
   Event.logged (PyErr.exc 5)]

/-- Arguments selecting parse mode with a missing database file. -/
def a8 : Args :=
  { db := some "mydb", create := false, imp := false, parse := true,
    capture_filter := none, process_capture := none,
    raft_capture_xml := none, burp_log := none, burp_xml := some ["x.xml"],
    burp_vuln_xml := none, burp_state := none, appscan_xml := none,
    webscarab := none, paros_message := none }

/-- Arguments selecting parse mode with one non-glob missing file. -/
def a9 : Args :=
  { db := none, create := false, imp := false, parse := true,
    capture_filter := none, process_capture := none,
    raft_capture_xml := none, burp_log := some ["missing.log"],
    burp_xml := none, burp_vuln_xml := none, burp_state := none,
    appscan_xml := none, webscarab := none, paros_message := none }

/-- The same arguments with a glob pattern instead. -/
def a9s : Args := { a9 with burp_log := some ["*.log"] }

/-- Whether an error value is a `PluginLoadError` carrying `path`. -/
def carriesPath : PyErr → String → Bool
  | .pluginLoadError p _, q => p = q
  | _, _ => false

/-- A world in which the plugin source `bad.py` raises during exec. -/
def w7 : World :=
  { fsExists := fun _ => false
    readFile := fun p => if p = "bad.py" then .ok 3 else .ok 0
    execUnit := fun c => if c = 3 then .error (.exc 7) else .ok []
    stream := fun _ _ => ([], none)
    adapt := fun r => r
    filterFn := fun _ _ => .ok 1
    procFn := fun _ _ => .ok 0 }

/-- Arguments registering a single capture-filter plugin in parse mode. -/
def argsWithFilterOnly (p : String) : Args :=
  { db := none, create := false, imp := false, parse := true,
    capture_filter := some [p], process_capture := none,
    raft_capture_xml := none, burp_log := none, burp_xml := none,
    burp_vuln_xml := none, burp_state := none, appscan_xml := none,
    webscarab := none, paros_message := none }

/-- The public bound-method contributions of one instance's attribute
listing, in `dir` order. -/
def attrContribs (attrs : List (String × Attr)) : List (String × FuncId) :=
  attrs.filterMap fun a =>
    match a.2 with
    | .method f => if underscored a.1 then none else some (a.1, f)
    | .nonMethod => none

/-- The flat capability contributions of a unit's bindings, in source
order: each class binding contributes its instance's public methods, each
function binding contributes itself. -/
def contribList (ns : List (String × Binding)) : List (String × FuncId) :=
  ns.flatMap fun kb =>
    match kb.2 with
    | .typeDef attrs => attrContribs attrs
    | .funcDef f => [(kb.1, f)]
    | .other => []

/-- The attribute listings of the class bindings of a unit. -/
def typeDefsOf (ns : List (String × Binding)) : List (List (String × Attr)) :=
  ns.filterMap fun kb =>
    match kb.2 with
    | .typeDef attrs => some attrs
    | _ => none

/-- The top-level function bindings of a unit. -/
def funcDefsOf (ns : List (String × Binding)) : List (String × FuncId) :=
  ns.filterMap fun kb =>
    match kb.2 with
    | .funcDef f => some (kb.1, f)
    | _ => none

/-- Modelled from the spec: the capability map as claim C6 describes it —
with exactly one instantiable type, exactly the public non-underscore
method attributes of the single instance; with no type, exactly the
top-level function bindings; other shapes are left unspecified. -/
def claimC6Map (ns : List (String × Binding)) : Option (List (String × FuncId)) :=
  match typeDefsOf ns with
  | [attrs] => some (attrContribs attrs)
  | [] => some (funcDefsOf ns)
  | _ => none

/-- A unit defining exactly one class (with one public and one private
method) and one top-level function. -/
def ns6 : List (String × Binding) :=
  [("Foo", .typeDef [("capture_filter", .method 1), ("_private", .method 9)]),
   ("helper", .funcDef 2)]

theorem slookup_map_val (g : String → ScriptEnv → ScriptEnv) :
    ∀ (s : List (String × ScriptEnv)) (p : String),
      slookup p (s.map fun kv => (kv.1, g kv.1 kv.2)) = (slookup p s).map (g p) := by
  intro s
  induction s with
  | nil => intro p; rfl
  | cons kv rest ih =>
    intro p
    by_cases hp : kv.1 = p
    · subst hp
      simp [slookup]
    · simp [slookup, hp, ih]

theorem supdate_eq (q : String) (v : ScriptEnv) :
    ∀ s, supdate q v s = s.map fun kv => (kv.1, if kv.1 = q then v else kv.2) := by
  intro s
  induction s with
  | nil => rfl
  | cons kv rest ih =>
    by_cases h : kv.1 = q
    · simp only [supdate, List.map_cons, if_pos h] at ih ⊢
      rw [ih, ← h]
    · simp only [supdate, List.map_cons, if_neg h] at ih ⊢
      rw [ih]

theorem slookup_supdate (p q : String) (v : ScriptEnv) (s : List (String × ScriptEnv)) :
    slookup p (supdate q v s) =
      (slookup p s).map fun e => if p = q then v else e := by
  rw [supdate_eq]
  exact slookup_map_val (fun k e => if k = q then v else e) s p

theorem slookup_resetFlags (p : String) (s : List (String × ScriptEnv)) :
    slookup p (resetFlags s) =
      (slookup p s).map fun env => { env with initialized := false } :=
  slookup_map_val (fun _ e => { e with initialized := false }) s p

theorem slookup_setFlags (b : String → Bool) (p : String)
    (s : List (String × ScriptEnv)) :
    slookup p (setFlags b s) =
      (slookup p s).map fun env => { env with initialized := b p } :=
  slookup_map_val (fun k e => { e with initialized := b k }) s p

theorem resetFlags_setFlags (b : String → Bool) (s : List (String × ScriptEnv)) :
    resetFlags (setFlags b s) = resetFlags s := by
  simp [resetFlags, setFlags]

theorem slookup_append_fresh (k : String) (v : ScriptEnv) :
    ∀ s, slookup k s = none → slookup k (s ++ [(k, v)]) = some v := by
  intro s
  induction s with
  | nil => simp [slookup]
  | cons kv rest ih =>
    intro h
    by_cases hk : kv.1 = k
    · simp [slookup, hk] at h
    · simp [slookup, hk] at h ⊢
      exact ih h

theorem runFilters_events (w : World) :
    ∀ (fil : List FuncId) (cap : Nat) (ev : Event),
      ev ∈ (runFilters w fil cap).1 → ∃ f, f ∈ fil ∧ ev = .filterCall f cap := by
  intro fil
  induction fil with
  | nil =>
    intro cap ev h
    simp [runFilters] at h
  | cons f rest ih =>
    intro cap ev h
    rcases hw : w.filterFn f cap with e | r
    · simp [runFilters, hw] at h
      exact ⟨f, by simp, h⟩
    · by_cases hr : r = 0
      · simp [runFilters, hw, hr] at h
        exact ⟨f, by simp, h⟩
      · rcases hrec : runFilters w rest cap with ⟨evs, res⟩
        simp [runFilters, hw, hr, hrec] at h
        rcases h with h | h
        · exact ⟨f, by simp, h⟩
        · rcases ih cap ev (by rw [hrec]; exact h) with ⟨g, hg, he⟩
          exact ⟨g, by simp [hg], he⟩

theorem runProcessors_events (w : World) :
    ∀ (pro : List FuncId) (cap : Nat) (ev : Event),
      ev ∈ (runProcessors w pro cap).1 → ∃ f, f ∈ pro ∧ ev = .procCall f cap := by
  intro pro
  induction pro with
  | nil =>
    intro cap ev h
    simp [runProcessors] at h
  | cons f rest ih =>
    intro cap ev h
    rcases hw : w.procFn f cap with e | r
    · simp [runProcessors, hw] at h
      exact ⟨f, by simp, h⟩
    · rcases hrec : runProcessors w rest cap with ⟨evs, res⟩
      simp [runProcessors, hw, hrec] at h
      rcases h with h | h
      · exact ⟨f, by simp, h⟩
      · rcases ih cap ev (by rw [hrec]; exact h) with ⟨g, hg, he⟩
        exact ⟨g, by simp [hg], he⟩

theorem processRecord_events (w : World) (fil pro : List FuncId) (r : Nat)
    (ev : Event) (h : ev ∈ (processRecord w fil pro r).1) :
    ev = .adaptEv r
    ∨ (∃ f, f ∈ fil ∧ ev = .filterCall f (w.adapt r))
    ∨ (∃ f, f ∈ pro ∧ ev = .procCall f (w.adapt r)) := by
  rcases hf : runFilters w fil (w.adapt r) with ⟨fevs, fres⟩
  rcases fres with e | skip
  · simp [processRecord, hf] at h
    rcases h with h | h
    · exact Or.inl h
    · exact Or.inr (Or.inl (runFilters_events w fil (w.adapt r) ev (by rw [hf]; exact h)))
  · rcases skip with _ | _
    · rcases hp : runProcessors w pro (w.adapt r) with ⟨pevs, pres⟩
      simp [processRecord, hf, hp] at h
      rcases h with h | h | h
      · exact Or.inl h
      · exact Or.inr (Or.inl (runFilters_events w fil (w.adapt r) ev (by rw [hf]; exact h)))
      · exact Or.inr (Or.inr (runProcessors_events w pro (w.adapt r) ev (by rw [hp]; exact h)))
    · simp [processRecord, hf] at h
      rcases h with h | h
      · exact Or.inl h
      · exact Or.inr (Or.inl (runFilters_events w fil (w.adapt r) ev (by rw [hf]; exact h)))

theorem runStream_events (w : World) (fil pro : List FuncId) :
    ∀ (raws : List Nat) (terr : Option PyErr) (ev : Event),
      ev ∈ (runStream w fil pro raws terr).1 →
      ∃ r, r ∈ raws ∧ ev ∈ (processRecord w fil pro r).1 := by
  intro raws
  induction raws with
  | nil =>
    intro terr ev h
    rcases terr with _ | e <;> simp [runStream] at h
  | cons r rest ih =>
    intro terr ev h
    rcases hr : processRecord w fil pro r with ⟨evs, res⟩
    rcases res with e | u
    · simp [runStream, hr] at h
      exact ⟨r, by simp, by rw [hr]; exact h⟩
    · rcases u
      rcases hrec : runStream w fil pro rest terr with ⟨evs2, res2⟩
      simp [runStream, hr, hrec] at h
      rcases h with h | h
      · exact ⟨r, by simp, by rw [hr]; exact h⟩
      · rcases ih terr ev (by rw [hrec]; exact h) with ⟨x, hx, he⟩
        exact ⟨x, by simp [hx], he⟩

theorem runStreamLogged_events (w : World) (fil pro : List FuncId)
    (raws : List Nat) (terr : Option PyErr) (ev : Event)
    (h : ev ∈ (runStreamLogged w fil pro raws terr).1) :
    (∃ r, r ∈ raws ∧ ev ∈ (processRecord w fil pro r).1) ∨ ∃ e, ev = .logged e := by
  rcases hs : runStream w fil pro raws terr with ⟨evs, res⟩
  rcases res with e | u
  · simp [runStreamLogged, hs] at h
    rcases h with h | h
    · exact Or.inl (runStream_events w fil pro raws terr ev (by rw [hs]; exact h))
    · exact Or.inr ⟨e, h⟩
  · rcases u
    simp [runStreamLogged, hs] at h
    exact Or.inl (runStream_events w fil pro raws terr ev (by rw [hs]; exact h))

theorem countLogged_append (a b : List Event) :
    countLogged (a ++ b) = countLogged a + countLogged b := by
  simp [countLogged, List.filter_append]

theorem countLogged_eq_zero (evs : List Event)
    (h : ∀ e : PyErr, Event.logged e ∉ evs) : countLogged evs = 0 := by
  have hnil : (evs.filter fun ev => match ev with
      | .logged _ => true
      | _ => false) = [] := by
    rw [List.filter_eq_nil_iff]
    intro ev hev
    cases ev with
    | logged e => exact absurd hev (h e)
    | stderrWrite m => simp
    | readEv p => simp
    | execEv p => simp
    | initCall p f => simp
    | adaptEv r => simp
    | filterCall f c => simp
    | procCall f c => simp
  rw [countLogged, hnil]
  rfl

theorem runStream_no_logged (w : World) (fil pro : List FuncId)
    (raws : List Nat) (terr : Option PyErr) (e : PyErr) :
    Event.logged e ∉ (runStream w fil pro raws terr).1 := by
  intro h
  rcases runStream_events w fil pro raws terr _ h with ⟨r, _, hin⟩
  rcases processRecord_events w fil pro r _ hin with h1 | ⟨f, _, h1⟩ | ⟨f, _, h1⟩ <;>
    exact absurd h1 (by simp)

theorem runStream_ok_prefix (w : World) (fil pro : List FuncId) :
    ∀ (pre rest : List Nat) (terr : Option PyErr),
      (∀ x ∈ pre, (processRecord w fil pro x).2 = Except.ok ()) →
      ∃ evs0, runStream w fil pro (pre ++ rest) terr =
          (evs0 ++ (runStream w fil pro rest terr).1,
           (runStream w fil pro rest terr).2)
        ∧ ∀ ev ∈ evs0, ∃ x, x ∈ pre ∧ ev ∈ (processRecord w fil pro x).1 := by
  intro pre
  induction pre with
  | nil =>
    intro rest terr h
    exact ⟨[], by simp, by simp⟩
  | cons x xs ih =>
    intro rest terr h
    have hx : (processRecord w fil pro x).2 = Except.ok () := h x (by simp)
    rcases hpx : processRecord w fil pro x with ⟨evs1, res1⟩
    have hres : res1 = Except.ok () := by rw [hpx] at hx; exact hx
    subst hres
    rcases ih rest terr (fun y hy => h y (by simp [hy])) with ⟨evs0, heq, hmem⟩
    refine ⟨evs1 ++ evs0, ?_, ?_⟩
    · simp only [List.cons_append, runStream, hpx, List.append_eq]
      rw [heq]
      simp [List.append_assoc]
    · intro ev hev
      rcases List.mem_append.1 hev with h1 | h1
      · exact ⟨x, by simp, by rw [hpx]; exact h1⟩
      · rcases hmem ev h1 with ⟨y, hy, hin⟩
        exact ⟨y, by simp [hy], hin⟩

theorem runProcessors_all_ok (w : World) (cap : Nat) :
    ∀ pro : List FuncId, (∀ f ∈ pro, (w.procFn f cap).isOk = true) →
      runProcessors w pro cap =
        (pro.map fun f => Event.procCall f cap, Except.ok ()) := by
  intro pro
  induction pro with
  | nil => intro h; rfl
  | cons f rest ih =>
    intro h
    have hf := h f (by simp)
    rcases hw : w.procFn f cap with e | v
    · rw [hw] at hf
      simp [Except.isOk, Except.toBool] at hf
    · have hrec := ih fun g hg => h g (by simp [hg])
      simp [runProcessors, hw, hrec]

theorem initCount_append (p : String) (a b : List Event) :
    initCount p (a ++ b) = initCount p a + initCount p b := by
  simp [initCount, List.filter_append]

theorem initReady_eq (s : List (String × ScriptEnv)) (p : String)
    (env : ScriptEnv) (h : slookup p s = some env) :
    initReady s p =
      ((flookup "initialize" env.functions).isSome && !env.initialized) := by
  unfold initReady
  rw [h]

theorem initReady_resetFlags (s : List (String × ScriptEnv)) (p : String) :
    initReady (resetFlags s) p = hasInitCap s p := by
  unfold initReady hasInitCap
  rw [slookup_resetFlags]
  rcases slookup p s with _ | env <;> simp

theorem fview_supdate_flag (p q : String) (env : ScriptEnv) (b : Bool)
    (s : List (String × ScriptEnv)) (hq : slookup q s = some env) :
    fview (supdate q { env with initialized := b } s) p = fview s p := by
  unfold fview
  rw [slookup_supdate]
  by_cases hpq : p = q
  · subst hpq
    rw [hq]
    simp
  · simp [hpq]

theorem setupStep_fview (p q : String) (env : ScriptEnv)
    (s : List (String × ScriptEnv)) (hq : slookup q s = some env) :
    fview (setupStep q env s) p = fview s p := by
  unfold setupStep
  by_cases hd : ((flookup "initialize" env.functions).isSome && !env.initialized) = true
  · rw [if_pos hd]
    exact fview_supdate_flag p q env true s hq
  · rw [if_neg hd]

theorem slookup_functions_of_fview (s1 s2 : List (String × ScriptEnv))
    (x : String) (env' : ScriptEnv) (hfv : fview s1 x = fview s2 x)
    (hs : slookup x s1 = some env') :
    ∃ env'', slookup x s2 = some env'' ∧ env''.functions = env'.functions := by
  unfold fview at hfv
  rw [hs] at hfv
  rcases h2 : slookup x s2 with _ | env''
  · rw [h2] at hfv
    simp at hfv
  · rw [h2] at hfv
    simp at hfv
    exact ⟨env'', rfl, hfv.symm⟩

theorem hasInitCap_eq_fview (s : List (String × ScriptEnv)) (p : String) :
    hasInitCap s p =
      ((fview s p).map fun fns => (flookup "initialize" fns).isSome).getD false := by
  unfold hasInitCap fview
  rcases slookup p s with _ | env <;> rfl

theorem hasInitCap_congr (s s' : List (String × ScriptEnv)) (p : String)
    (h : fview s p = fview s' p) : hasInitCap s p = hasInitCap s' p := by
  rw [hasInitCap_eq_fview, hasInitCap_eq_fview, h]

theorem initReady_setupStep_self (q : String) (env : ScriptEnv)
    (s : List (String × ScriptEnv)) (h : slookup q s = some env) :
    initReady (setupStep q env s) q = false := by
  unfold setupStep
  by_cases hd : ((flookup "initialize" env.functions).isSome && !env.initialized) = true
  · rw [if_pos hd]
    unfold initReady
    rw [slookup_supdate, h]
    simp
  · rw [if_neg hd]
    rw [initReady_eq s q env h]
    simpa using hd

theorem initReady_setupStep_other (p q : String) (env : ScriptEnv)
    (s : List (String × ScriptEnv)) (hpq : p ≠ q) :
    initReady (setupStep q env s) p = initReady s p := by
  unfold setupStep
  by_cases hd : ((flookup "initialize" env.functions).isSome && !env.initialized) = true
  · rw [if_pos hd]
    unfold initReady
    rw [slookup_supdate]
    simp [hpq]
  · rw [if_neg hd]

theorem setupRole_fview (file cap : String) :
    ∀ (paths : List String) (scripts : List (String × ScriptEnv)) (p : String),
      fview (setupRole file cap paths scripts).1 p = fview scripts p := by
  intro paths
  induction paths with
  | nil => intro scripts p; rfl
  | cons q rest ih =>
    intro scripts p
    rcases h : slookup q scripts with _ | env
    · simp [setupRole, h, ih]
    · simp only [setupRole, h]
      rw [ih (setupStep q env scripts) p, setupStep_fview p q env scripts h]

theorem setupRole_events (file cap : String) :
    ∀ (paths : List String) (scripts : List (String × ScriptEnv)) (ev : Event),
      ev ∈ (setupRole file cap paths scripts).2.1 →
      ∃ q, q ∈ paths ∧ ev = Event.initCall q file := by
  intro paths
  induction paths with
  | nil =>
    intro scripts ev h
    simp [setupRole] at h
  | cons q rest ih =>
    intro scripts ev h
    rcases hq : slookup q scripts with _ | env
    · simp only [setupRole, hq] at h
      rcases ih scripts ev h with ⟨x, hx, he⟩
      exact ⟨x, by simp [hx], he⟩
    · simp only [setupRole, hq] at h
      rcases List.mem_append.1 h with h1 | h1
      · unfold setupEvs at h1
        by_cases hd : ((flookup "initialize" env.functions).isSome && !env.initialized) = true
        · rw [if_pos hd] at h1
          simp at h1
          exact ⟨q, by simp, h1⟩
        · rw [if_neg hd] at h1
          simp at h1
      · rcases ih (setupStep q env scripts) ev h1 with ⟨x, hx, he⟩
        exact ⟨x, by simp [hx], he⟩

theorem setupRole_fns (file cap : String) :
    ∀ (paths : List String) (scripts : List (String × ScriptEnv)) (f : FuncId),
      f ∈ (setupRole file cap paths scripts).2.2 →
      ∃ q env, q ∈ paths ∧ slookup q scripts = some env ∧
        flookup cap env.functions = some f := by
  intro paths
  induction paths with
  | nil =>
    intro scripts f h
    simp [setupRole] at h
  | cons q rest ih =>
    intro scripts f h
    rcases hq : slookup q scripts with _ | env
    · simp only [setupRole, hq] at h
      rcases ih scripts f h with ⟨x, env, hx, hs, hf⟩
      exact ⟨x, env, by simp [hx], hs, hf⟩
    · simp only [setupRole, hq] at h
      unfold capCons at h
      rcases hcap : flookup cap env.functions with _ | g
      · rw [hcap] at h
        rcases ih (setupStep q env scripts) f h with ⟨x, env', hx, hs, hf⟩
        rcases slookup_functions_of_fview (setupStep q env scripts) scripts x
            env' (setupStep_fview x q env scripts hq) hs with ⟨env'', hs2, hfns⟩
        exact ⟨x, env'', by simp [hx], hs2, by rw [hfns]; exact hf⟩
      · rw [hcap] at h
        rcases List.mem_cons.1 h with h1 | h1
        · exact ⟨q, env, by simp, hq, by rw [hcap, h1]⟩
        · rcases ih (setupStep q env scripts) f h1 with ⟨x, env', hx, hs, hf⟩
          rcases slookup_functions_of_fview (setupStep q env scripts) scripts x
              env' (setupStep_fview x q env scripts hq) hs with ⟨env'', hs2, hfns⟩
          exact ⟨x, env'', by simp [hx], hs2, by rw [hfns]; exact hf⟩

theorem setupRole_cons_none (file cap q : String) (rest : List String)
    (scripts : List (String × ScriptEnv)) (h : slookup q scripts = none) :
    setupRole file cap (q :: rest) scripts = setupRole file cap rest scripts := by
  simp [setupRole, h]

theorem setupRole_cons_some (file cap q : String) (rest : List String)
    (scripts : List (String × ScriptEnv)) (env : ScriptEnv)
    (h : slookup q scripts = some env) :
    setupRole file cap (q :: rest) scripts =
      ((setupRole file cap rest (setupStep q env scripts)).1,
       setupEvs file q env ++
         (setupRole file cap rest (setupStep q env scripts)).2.1,
       capCons (flookup cap env.functions)
         (setupRole file cap rest (setupStep q env scripts)).2.2) := by
  simp [setupRole, h]

theorem setupRole_init_invariants (file cap : String) :
    ∀ (paths : List String) (scripts : List (String × ScriptEnv)) (p : String),
      initCount p (setupRole file cap paths scripts).2.1 =
        (if p ∈ paths ∧ initReady scripts p = true then 1 else 0)
      ∧ initReady (setupRole file cap paths scripts).1 p =
          (initReady scripts p && !(decide (p ∈ paths))) := by
  intro paths
  induction paths with
  | nil =>
    intro scripts p
    constructor
    · simp [setupRole, initCount]
    · simp [setupRole]
  | cons q rest ih =>
    intro scripts p
    rcases hq : slookup q scripts with _ | env
    · rw [setupRole_cons_none file cap q rest scripts hq]
      by_cases hpq : p = q
      · subst hpq
        have hready : initReady scripts p = false := by
          unfold initReady
          rw [hq]
        constructor
        · rw [(ih scripts p).1, hready]
          simp
        · rw [(ih scripts p).2, hready]
          simp
      · constructor
        · rw [(ih scripts p).1]
          simp [List.mem_cons, hpq]
        · rw [(ih scripts p).2]
          by_cases hm : p ∈ rest <;> simp [List.mem_cons, hpq, hm]
    · rw [setupRole_cons_some file cap q rest scripts env hq]
      by_cases hpq : p = q
      · subst hpq
        have hready : initReady scripts p =
            ((flookup "initialize" env.functions).isSome && !env.initialized) :=
          initReady_eq scripts p env hq
        by_cases hd :
            ((flookup "initialize" env.functions).isSome && !env.initialized) = true
        · constructor
          · have h1 : initCount p (setupEvs file p env) = 1 := by
              unfold setupEvs initCount
              rw [if_pos hd]
              simp
            have h2 := (ih (setupStep p env scripts) p).1
            rw [initReady_setupStep_self p env scripts hq] at h2
            simp at h2
            rw [initCount_append, h1, h2, hready, hd]
            simp
          · have h2 := (ih (setupStep p env scripts) p).2
            rw [initReady_setupStep_self p env scripts hq] at h2
            rw [h2]
            simp
        · have hd' : ((flookup "initialize" env.functions).isSome && !env.initialized)
              = false := Bool.eq_false_iff.mpr hd
          constructor
          · have h1 : initCount p (setupEvs file p env) = 0 := by
              unfold setupEvs initCount
              rw [if_neg hd]
              rfl
            have h2 := (ih (setupStep p env scripts) p).1
            rw [initReady_setupStep_self p env scripts hq] at h2
            simp at h2
            rw [initCount_append, h1, h2, hready, hd']
            simp
          · have h2 := (ih (setupStep p env scripts) p).2
            rw [initReady_setupStep_self p env scripts hq] at h2
            rw [h2]
            simp
      · have hstep := initReady_setupStep_other p q env scripts hpq
        constructor
        · have h1 : initCount p (setupEvs file q env) = 0 := by
            unfold setupEvs initCount
            by_cases hd :
                ((flookup "initialize" env.functions).isSome && !env.initialized) = true
            · rw [if_pos hd]
              simp [Ne.symm hpq]
            · rw [if_neg hd]
              rfl
          have h2 := (ih (setupStep q env scripts) p).1
          rw [hstep] at h2
          rw [initCount_append, h1, h2]
          simp [List.mem_cons, hpq]
        · have h2 := (ih (setupStep q env scripts) p).2
          rw [hstep] at h2
          rw [h2]
          by_cases hm : p ∈ rest <;> simp [List.mem_cons, hpq, hm]

theorem parse_one_file_eq (w : World) (st : CmdState) (file : String)
    (raws : List Nat) (terr : Option PyErr) :
    parse_one_file w st file raws terr =
      ({ st with scripts := (pcSetup st file).1 },
       .stderrWrite ("processing [" ++ file ++ "]") ::
         ((cfSetup st file).2.1 ++ (pcSetup st file).2.1 ++
          (runStreamLogged w (activeFilters st file) (activeProcessors st file)
            raws terr).1),
       (runStreamLogged w (activeFilters st file) (activeProcessors st file)
         raws terr).2) := rfl

theorem fview_resetFlags (s : List (String × ScriptEnv)) (p : String) :
    fview (resetFlags s) p = fview s p := by
  unfold fview
  rw [slookup_resetFlags]
  rcases slookup p s with _ | env <;> rfl

theorem runStreamLogged_no_initCall (w : World) (fil pro : List FuncId)
    (raws : List Nat) (terr : Option PyErr) (p f : String) :
    Event.initCall p f ∉ (runStreamLogged w fil pro raws terr).1 := by
  intro h
  rcases runStreamLogged_events w fil pro raws terr _ h with ⟨r, _, hin⟩ | ⟨e, he⟩
  · rcases processRecord_events w fil pro r _ hin with h1 | ⟨g, _, h1⟩ | ⟨g, _, h1⟩ <;>
      simp at h1
  · simp at he

theorem initCount_eq_zero (p : String) (evs : List Event)
    (h : ∀ q f : String, Event.initCall q f ∉ evs) : initCount p evs = 0 := by
  have hnil : (evs.filter fun ev => match ev with
      | .initCall q _ => q == p
      | _ => false) = [] := by
    rw [List.filter_eq_nil_iff]
    intro ev hev
    cases ev with
    | initCall q f => exact absurd hev (h q f)
    | stderrWrite m => simp
    | readEv q => simp
    | execEv q => simp
    | adaptEv r => simp
    | filterCall g c => simp
    | procCall g c => simp
    | logged e => simp
  rw [initCount, hnil]
  rfl

theorem initCount_cons_stderr (p m : String) (l : List Event) :
    initCount p (Event.stderrWrite m :: l) = initCount p l := by
  simp [initCount]

/-- C5: for every plugin source path `p`, one run of `parse_one_file`
invokes `p`'s `initialize` capability exactly once when `p` is registered
(as a filter, as a processor, in both roles, or several times in one role)
and supplies that capability, and never otherwise; moreover the run does
not depend on the incoming per-plugin initialization flags, which are
reset for every cached plugin at the start of the file. -/
theorem c5_initialize_once_per_file (w : World) (st : CmdState) (file : String)
    (raws : List Nat) (terr : Option PyErr) (p : String) (b : String → Bool) :
    initCount p (parse_one_file w st file raws terr).2.1 =
      (if (p ∈ st.capture_filter_scripts ∨ p ∈ st.process_capture_scripts)
          ∧ hasInitCap st.scripts p = true then 1 else 0)
    ∧ parse_one_file w { st with scripts := setFlags b st.scripts } file raws terr
        = parse_one_file w st file raws terr := by
  constructor
  · rw [parse_one_file_eq]
    simp only [cfSetup, pcSetup, activeFilters, activeProcessors]
    have hstream : initCount p (runStreamLogged w
        (setupRole file "capture_filter" st.capture_filter_scripts
          (resetFlags st.scripts)).2.2
        (setupRole file "process_capture" st.process_capture_scripts
          (setupRole file "capture_filter" st.capture_filter_scripts
            (resetFlags st.scripts)).1).2.2 raws terr).1 = 0 :=
      initCount_eq_zero p _ fun q f => runStreamLogged_no_initCall w _ _ raws terr q f
    have hcf := (setupRole_init_invariants file "capture_filter"
        st.capture_filter_scripts (resetFlags st.scripts) p).1
    have hcf2 := (setupRole_init_invariants file "capture_filter"
        st.capture_filter_scripts (resetFlags st.scripts) p).2
    have hpc := (setupRole_init_invariants file "process_capture"
        st.process_capture_scripts
        (setupRole file "capture_filter" st.capture_filter_scripts
          (resetFlags st.scripts)).1 p).1
    rw [initReady_resetFlags] at hcf hcf2
    rw [hcf2] at hpc
    rw [initCount_cons_stderr, initCount_append, initCount_append, hstream,
      hcf, hpc]
    by_cases h1 : p ∈ st.capture_filter_scripts <;>
      by_cases h2 : p ∈ st.process_capture_scripts <;>
      by_cases h3 : hasInitCap st.scripts p = true <;>
      simp [h1, h2, h3]
  · simp only [parse_one_file_eq]
    simp only [cfSetup, pcSetup, activeFilters, activeProcessors]
    simp [resetFlags_setFlags]

/-- C10: during `parse_one_file`, every processor invocation runs a
function obtained as the `process_capture` capability of a plugin
registered under `--process-capture`, and every filter invocation runs a
function obtained as the `capture_filter` capability of a plugin
registered under `--capture-filter`: the registration flag alone, not the
plugin's capability set, decides in which role a plugin runs. -/
theorem c10_role_from_registration (w : World) (st : CmdState) (file : String)
    (raws : List Nat) (terr : Option PyErr) (f : FuncId) (c : Nat) :
    (Event.procCall f c ∈ (parse_one_file w st file raws terr).2.1 →
      ∃ q env, q ∈ st.process_capture_scripts ∧ slookup q st.scripts = some env ∧
        flookup "process_capture" env.functions = some f)
    ∧ (Event.filterCall f c ∈ (parse_one_file w st file raws terr).2.1 →
      ∃ q env, q ∈ st.capture_filter_scripts ∧ slookup q st.scripts = some env ∧
        flookup "capture_filter" env.functions = some f) := by
  rw [parse_one_file_eq]
  constructor
  · intro h
    rcases List.mem_cons.1 h with h0 | h0
    · exact absurd h0 (by simp)
    · rcases List.mem_append.1 h0 with h1 | h1
      · rcases List.mem_append.1 h1 with h2 | h2
        · rcases setupRole_events file "capture_filter" _ _ _ h2 with ⟨q, _, he⟩
          simp at he
        · rcases setupRole_events file "process_capture" _ _ _ h2 with ⟨q, _, he⟩
          simp at he
      · rcases runStreamLogged_events w _ _ raws terr _ h1 with ⟨r, _, hin⟩ | ⟨e, he⟩
        · rcases processRecord_events w _ _ r _ hin with h2 | ⟨g, hg, h2⟩ | ⟨g, hg, h2⟩
          · simp at h2
          · simp at h2
          · simp only [Event.procCall.injEq] at h2
            rcases h2 with ⟨rfl, rfl⟩
            simp only [activeProcessors, pcSetup] at hg
            rcases setupRole_fns file "process_capture" st.process_capture_scripts
                (cfSetup st file).1 f hg with ⟨q, env', hq, hs, hfl⟩
            have hfv : fview (cfSetup st file).1 q = fview st.scripts q := by
              rw [show fview (cfSetup st file).1 q =
                  fview (resetFlags st.scripts) q from
                setupRole_fview file "capture_filter" st.capture_filter_scripts
                  (resetFlags st.scripts) q]
              exact fview_resetFlags st.scripts q
            rcases slookup_functions_of_fview _ _ q env' hfv hs with ⟨env'', hs2, hfns⟩
            exact ⟨q, env'', hq, hs2, by rw [hfns]; exact hfl⟩
        · simp at he
  · intro h
    rcases List.mem_cons.1 h with h0 | h0
    · exact absurd h0 (by simp)
    · rcases List.mem_append.1 h0 with h1 | h1
      · rcases List.mem_append.1 h1 with h2 | h2
        · rcases setupRole_events file "capture_filter" _ _ _ h2 with ⟨q, _, he⟩
          simp at he
        · rcases setupRole_events file "process_capture" _ _ _ h2 with ⟨q, _, he⟩
          simp at he
      · rcases runStreamLogged_events w _ _ raws terr _ h1 with ⟨r, _, hin⟩ | ⟨e, he⟩
        · rcases processRecord_events w _ _ r _ hin with h2 | ⟨g, hg, h2⟩ | ⟨g, hg, h2⟩
          · simp at h2
          · simp only [Event.filterCall.injEq] at h2
            rcases h2 with ⟨rfl, rfl⟩
            simp only [activeFilters, cfSetup] at hg
            rcases setupRole_fns file "capture_filter" st.capture_filter_scripts
                (resetFlags st.scripts) f hg with ⟨q, env', hq, hs, hfl⟩
            rcases slookup_functions_of_fview _ _ q env'
                (fview_resetFlags st.scripts q) hs with ⟨env'', hs2, hfns⟩
            exact ⟨q, env'', hq, hs2, by rw [hfns]; exact hfl⟩
          · simp at h2
        · simp at he

theorem procCallsOf_append (a b : List Event) :
    procCallsOf (a ++ b) = procCallsOf a ++ procCallsOf b := by
  simp [procCallsOf, List.filter_append]

theorem procCallsOf_adapt (r : Nat) (l : List Event) :
    procCallsOf (Event.adaptEv r :: l) = procCallsOf l := by
  simp [procCallsOf]

theorem procCallsOf_filterCalls (w : World) (fil : List FuncId) (cap : Nat) :
    procCallsOf (runFilters w fil cap).1 = [] := by
  unfold procCallsOf
  refine List.filter_eq_nil_iff.2 ?_
  intro ev hev
  rcases runFilters_events w fil cap ev hev with ⟨g, _, rfl⟩
  simp

theorem procCallsOf_map_proc (pro : List FuncId) (cap : Nat) :
    procCallsOf (pro.map fun g => Event.procCall g cap) =
      pro.map fun g => Event.procCall g cap := by
  unfold procCallsOf
  refine List.filter_eq_self.2 ?_
  intro ev hev
  rcases List.mem_map.1 hev with ⟨g, _, rfl⟩
  rfl

/-- C2: per record, a falsy filter return vetoes the record (no processor
invocation happens for it, the record loop proceeds to the rest of the
stream unchanged); with no veto, every active processor is invoked exactly
once, in registration order, each on the same post-filter capture — the
adapted capture, never a previous processor's return value. -/
theorem c2_veto_and_processor_order (w : World) (fil pro : List FuncId)
    (r : Nat) (rest : List Nat) (terr : Option PyErr) :
    ((runFilters w fil (w.adapt r)).2 = Except.ok true →
      procCallsOf (processRecord w fil pro r).1 = []
      ∧ (processRecord w fil pro r).2 = Except.ok ()
      ∧ runStream w fil pro (r :: rest) terr =
          ((processRecord w fil pro r).1 ++ (runStream w fil pro rest terr).1,
           (runStream w fil pro rest terr).2))
    ∧ ((runFilters w fil (w.adapt r)).2 = Except.ok false →
      (∀ g ∈ pro, (w.procFn g (w.adapt r)).isOk = true) →
      procCallsOf (processRecord w fil pro r).1 =
        pro.map fun g => Event.procCall g (w.adapt r)) := by
  constructor
  · intro h
    rcases hf : runFilters w fil (w.adapt r) with ⟨fevs, fres⟩
    rw [hf] at h
    simp at h
    subst h
    have hpr : processRecord w fil pro r = (.adaptEv r :: fevs, Except.ok ()) := by
      simp [processRecord, hf]
    have hnil : procCallsOf fevs = [] := by
      have := procCallsOf_filterCalls w fil (w.adapt r)
      rw [hf] at this
      exact this
    refine ⟨?_, by rw [hpr], ?_⟩
    · rw [hpr, procCallsOf_adapt, hnil]
    · rcases hrec : runStream w fil pro rest terr with ⟨evs2, res2⟩
      simp [runStream, hpr, hrec]
  · intro h hok
    rcases hf : runFilters w fil (w.adapt r) with ⟨fevs, fres⟩
    rw [hf] at h
    simp at h
    subst h
    have hnil : procCallsOf fevs = [] := by
      have := procCallsOf_filterCalls w fil (w.adapt r)
      rw [hf] at this
      exact this
    have hp := runProcessors_all_ok w (w.adapt r) pro hok
    have hpr : processRecord w fil pro r =
        (.adaptEv r :: (fevs ++ pro.map fun g => Event.procCall g (w.adapt r)),
         Except.ok ()) := by
      simp [processRecord, hf, hp]
    rw [hpr, procCallsOf_adapt, procCallsOf_append, hnil,
      procCallsOf_map_proc]
    rfl

theorem runFilters_take (w : World) (cap : Nat) :
    ∀ fil : List FuncId, ∃ n, (runFilters w fil cap).1 =
      (fil.take n).map fun g => Event.filterCall g cap := by
  intro fil
  induction fil with
  | nil => exact ⟨0, rfl⟩
  | cons f rest ih =>
    rcases hw : w.filterFn f cap with e | v
    · exact ⟨1, by simp [runFilters, hw]⟩
    · by_cases hv : v = 0
      · exact ⟨1, by simp [runFilters, hw, hv]⟩
      · rcases ih with ⟨n, hn⟩
        exact ⟨n + 1, by simp [runFilters, hw, hv, hn]⟩

/-- C1 (amended): the active filters are applied in registration order,
but every filter invocation receives the originally adapted capture — a
filter's return value is used only to decide whether the record is
skipped, and is never forwarded as the next filter's input. -/
theorem c1_filters_receive_adapted_capture (w : World) (fil pro : List FuncId)
    (r : Nat) (f : FuncId) (c : Nat) :
    (Event.filterCall f c ∈ (processRecord w fil pro r).1 →
      c = w.adapt r ∧ f ∈ fil)
    ∧ ∃ n, (runFilters w fil (w.adapt r)).1 =
        (fil.take n).map fun g => Event.filterCall g (w.adapt r) := by
  constructor
  · intro h
    rcases processRecord_events w fil pro r _ h with h1 | ⟨g, hg, h1⟩ | ⟨g, hg, h1⟩
    · simp at h1
    · simp only [Event.filterCall.injEq] at h1
      rcases h1 with ⟨rfl, rfl⟩
      exact ⟨rfl, hg⟩
    · simp at h1
  · exact runFilters_take w (w.adapt r) fil

/-- C3: when an error is raised while processing a file's record stream —
whether a filter or processor raises while processing a record after a
prefix of well-processed records, or the format parser itself fails after
yielding its records — processing stops with that error: it is logged
exactly once and re-raised as the result, no record beyond the failure
point is ever adapted, and a file whose processing raised aborts the
per-format file loop (the remaining files of the expansion are never
touched). -/
theorem c3_error_logged_once_and_aborts (w : World) (fil pro : List FuncId) :
    (∀ (pre post : List Nat) (r : Nat) (terr : Option PyErr) (e : PyErr),
      (∀ x ∈ pre, (processRecord w fil pro x).2 = Except.ok ()) →
      (processRecord w fil pro r).2 = Except.error e →
      (runStreamLogged w fil pro (pre ++ r :: post) terr).2 = Except.error e
      ∧ countLogged (runStreamLogged w fil pro (pre ++ r :: post) terr).1 = 1
      ∧ (∀ x, Event.adaptEv x ∈
            (runStreamLogged w fil pro (pre ++ r :: post) terr).1 →
          x ∈ pre ++ [r]))
    ∧ (∀ (raws : List Nat) (e : PyErr),
      (∀ x ∈ raws, (processRecord w fil pro x).2 = Except.ok ()) →
      (runStreamLogged w fil pro raws (some e)).2 = Except.error e
      ∧ countLogged (runStreamLogged w fil pro raws (some e)).1 = 1
      ∧ (∀ x, Event.adaptEv x ∈ (runStreamLogged w fil pro raws (some e)).1 →
          x ∈ raws))
    ∧ (∀ (st : CmdState) (fmt file : String) (fs : List String)
        (st' : CmdState) (evs' : List Event) (e : PyErr),
        parse_one_file w st file (w.stream fmt file).1 (w.stream fmt file).2 =
          (st', evs', Except.error e) →
        parse_files w st fmt (file :: fs) = (st', evs', Except.error e)) := by
  refine ⟨?_, ?_, ?_⟩
  · intro pre post r terr e hpre hr
    rcases hpx : processRecord w fil pro r with ⟨evs1, res1⟩
    have hres : res1 = Except.error e := by rw [hpx] at hr; exact hr
    subst hres
    rcases runStream_ok_prefix w fil pro pre (r :: post) terr hpre with
      ⟨evs0, heq, hmem⟩
    have hstream : runStream w fil pro (r :: post) terr = (evs1, Except.error e) := by
      simp [runStream, hpx]
    rw [hstream] at heq
    have hlog : runStreamLogged w fil pro (pre ++ r :: post) terr =
        ((evs0 ++ evs1) ++ [Event.logged e], Except.error e) := by
      unfold runStreamLogged
      rw [heq]
    refine ⟨by rw [hlog], ?_, ?_⟩
    · rw [hlog, countLogged_append, countLogged_append]
      have h0 : countLogged evs0 = 0 := by
        refine countLogged_eq_zero _ fun e' he' => ?_
        rcases hmem _ he' with ⟨x, _, hin⟩
        rcases processRecord_events w fil pro x _ hin with h1 | ⟨g, _, h1⟩ | ⟨g, _, h1⟩ <;>
          simp at h1
      have h1 : countLogged evs1 = 0 := by
        refine countLogged_eq_zero _ fun e' he' => ?_
        have hin : Event.logged e' ∈ (processRecord w fil pro r).1 := by
          rw [hpx]
          exact he'
        rcases processRecord_events w fil pro r _ hin with h1 | ⟨g, _, h1⟩ | ⟨g, _, h1⟩ <;>
          simp at h1
      rw [h0, h1]
      rfl
    · intro x hx
      rw [hlog] at hx
      rcases List.mem_append.1 hx with hx | hx
      · rcases List.mem_append.1 hx with hx | hx
        · rcases hmem _ hx with ⟨y, hy, hin⟩
          rcases processRecord_events w fil pro y _ hin with h1 | ⟨g, _, h1⟩ | ⟨g, _, h1⟩
          · simp only [Event.adaptEv.injEq] at h1
            subst h1
            simp [hy]
          · simp at h1
          · simp at h1
        · have hin : Event.adaptEv x ∈ (processRecord w fil pro r).1 := by
            rw [hpx]
            exact hx
          rcases processRecord_events w fil pro r _ hin with h1 | ⟨g, _, h1⟩ | ⟨g, _, h1⟩
          · simp only [Event.adaptEv.injEq] at h1
            subst h1
            simp
          · simp at h1
          · simp at h1
      · simp at hx
  · intro raws e hok
    rcases runStream_ok_prefix w fil pro raws [] (some e) hok with ⟨evs0, heq, hmem⟩
    rw [List.append_nil] at heq
    have htail : runStream w fil pro [] (some e) = ([], Except.error e) := rfl
    rw [htail] at heq
    have hlog : runStreamLogged w fil pro raws (some e) =
        ((evs0 ++ []) ++ [Event.logged e], Except.error e) := by
      unfold runStreamLogged
      rw [heq]
    refine ⟨by rw [hlog], ?_, ?_⟩
    · rw [hlog, countLogged_append, countLogged_append]
      have h0 : countLogged evs0 = 0 := by
        refine countLogged_eq_zero _ fun e' he' => ?_
        rcases hmem _ he' with ⟨x, _, hin⟩
        rcases processRecord_events w fil pro x _ hin with h1 | ⟨g, _, h1⟩ | ⟨g, _, h1⟩ <;>
          simp at h1
      rw [h0]
      rfl
    · intro x hx
      rw [hlog] at hx
      rcases List.mem_append.1 hx with hx | hx
      · rcases List.mem_append.1 hx with hx | hx
        · rcases hmem _ hx with ⟨y, hy, hin⟩
          rcases processRecord_events w fil pro y _ hin with h1 | ⟨g, _, h1⟩ | ⟨g, _, h1⟩
          · simp only [Event.adaptEv.injEq] at h1
            subst h1
            exact hy
          · simp at h1
          · simp at h1
        · simp at hx
      · simp at hx
  · intro st fmt file fs st' evs' e hpf
    simp [parse_files, hpf]

/-- C4: plugin loading is idempotent by source path: after a successful
load, loading the same path again returns the very same cached environment
(hence the same capability set), performs no source read, compile or
execution, and leaves the cache untouched. -/
theorem c4_load_idempotent (w : World) (st st1 : CmdState) (path : String)
    (evs : List Event) (env : ScriptEnv)
    (h : load_script_file w st path = (st1, evs, Except.ok env)) :
    load_script_file w st1 path = (st1, [], Except.ok env) := by
  rcases hs : slookup path st.scripts with _ | env0
  · rcases hr : w.readFile path with e | code
    · simp [load_script_file, hs, hr] at h
    · rcases hx : w.execUnit code with e | ns
      · simp [load_script_file, hs, hr, hx] at h
      · simp only [load_script_file, hs, hr, hx] at h
        simp at h
        obtain ⟨h1, h2, h3⟩ := h
        subst h1
        subst h3
        simp [load_script_file, slookup_append_fresh path _ st.scripts hs]
  · simp only [load_script_file, hs] at h
    simp at h
    obtain ⟨h1, h2, h3⟩ := h
    subst h1
    subst h3
    simp [load_script_file, hs]

theorem c1_chaining_counterexample :
    w1.filterFn 1 5 = Except.ok 99
    ∧ (99 : Nat) ≠ 0
    ∧ (processRecord w1 [1, 2] [] 5).1 =
        [Event.adaptEv 5, Event.filterCall 1 5, Event.filterCall 2 5]
    ∧ Event.filterCall 2 99 ∉ (processRecord w1 [1, 2] [] 5).1 :=
  ⟨rfl, by decide, rfl, by decide⟩

theorem c1_filters_receive_adapted_capture_w :
    ((5 : Nat) = w1.adapt 5 ∧ 1 ∈ [1, 2])
    ∧ ∃ n, (runFilters w1 [1, 2] (w1.adapt 5)).1 =
        (([1, 2].take n).map fun g => Event.filterCall g (w1.adapt 5)) :=
  ⟨(c1_filters_receive_adapted_capture w1 [1, 2] [] 5 1 5).1 (by decide),
   (c1_filters_receive_adapted_capture w1 [1, 2] [] 5 1 5).2⟩

theorem c2_veto_and_processor_order_w :
    (procCallsOf (processRecord w1 [3] [7, 8] 5).1 = []
      ∧ (processRecord w1 [3] [7, 8] 5).2 = Except.ok ()
      ∧ runStream w1 [3] [7, 8] (5 :: [6]) none =
          ((processRecord w1 [3] [7, 8] 5).1 ++
             (runStream w1 [3] [7, 8] [6] none).1,
           (runStream w1 [3] [7, 8] [6] none).2))
    ∧ procCallsOf (processRecord w1 [2] [7, 8] 5).1 =
        ([7, 8].map fun g => Event.procCall g (w1.adapt 5)) :=
  ⟨(c2_veto_and_processor_order w1 [3] [7, 8] 5 [6] none).1 rfl,
   (c2_veto_and_processor_order w1 [2] [7, 8] 5 [6] none).2 rfl (by decide)⟩

theorem c3_error_logged_once_and_aborts_w :
    ((runStreamLogged w3 [1] [] [1, 2, 3, 4, 5] none).2 =
          Except.error (PyErr.exc 5)
      ∧ countLogged (runStreamLogged w3 [1] [] [1, 2, 3, 4, 5] none).1 = 1
      ∧ (1 : Nat) ∈ [1] ++ [2])
    ∧ ((runStreamLogged w3 [1] [] [1, 3] (some (PyErr.exc 9))).2 =
          Except.error (PyErr.exc 9)
      ∧ countLogged (runStreamLogged w3 [1] [] [1, 3] (some (PyErr.exc 9))).1 = 1
      ∧ (3 : Nat) ∈ [1, 3])
    ∧ parse_files w3 st3 "burp_log" ["a.xml", "b.xml"] =
        (st3, c3evs, Except.error (PyErr.exc 5)) :=
  have h := c3_error_logged_once_and_aborts w3 [1] []
  ⟨⟨(h.1 [1] [3, 4, 5] 2 none (PyErr.exc 5) (by decide) rfl).1,
    (h.1 [1] [3, 4, 5] 2 none (PyErr.exc 5) (by decide) rfl).2.1,
    (h.1 [1] [3, 4, 5] 2 none (PyErr.exc 5) (by decide) rfl).2.2 1 (by decide)⟩,
   ⟨(h.2.1 [1, 3] (PyErr.exc 9) (by decide)).1,
    (h.2.1 [1, 3] (PyErr.exc 9) (by decide)).2.1,
    (h.2.1 [1, 3] (PyErr.exc 9) (by decide)).2.2 3 (by decide)⟩,
   h.2.2 st3 "burp_log" "a.xml" ["b.xml"] st3 c3evs (PyErr.exc 5) rfl⟩

theorem c4_load_idempotent_w :
    load_script_file w1 st4 "a.py" = (st4, [], Except.ok env4) :=
  c4_load_idempotent w1 initState st4 "a.py"
    [Event.readEv "a.py", Event.execEv "a.py"] env4 rfl

theorem c10_role_from_registration_w :
    ∃ q env, q ∈ stW.process_capture_scripts ∧ slookup q stW.scripts = some env ∧
      flookup "process_capture" env.functions = some 2 :=
  (c10_role_from_registration w1 stW "a.xml" [3] none 2 3).1 (by decide)

/-- C8: with `--db mydb` while `mydb.raftdb` does not exist, `--create`
absent and a parse requested, `process_args` reports the missing database
on stderr and returns status 1 before any plugin loading or parsing (the
trace holds nothing but the stderr report) — but `main` discards that
status, so the process exit code is 0 rather than the claimed 1. -/
theorem c8_missing_db_status_discarded :
    process_args w1 initState a8 =
      (initState, [Event.stderrWrite "DB file [mydb.raftdb] does not exist"],
       Except.ok 1)
    ∧ mainExitCode w1 a8 = 0 := ⟨rfl, rfl⟩

/-- C9: a format file argument naming a non-glob, non-existent path makes
the parse loop raise `UnboundLocalError` (`file_list` was never assigned),
and a glob argument raises `NameError` (the module never imports `glob`);
neither case is the claimed silent empty contribution. -/
theorem c9_missing_path_raises :
    run_parse_process_loop w1 initState a9 =
      (initState, [], Except.error (PyErr.unboundLocal "file_list"))
    ∧ run_parse_process_loop w1 initState a9s =
      (initState, [], Except.error (PyErr.nameError "glob")) := ⟨rfl, rfl⟩

theorem c7_counterexample :
    (load_script_file w7 initState "bad.py").2.2 = Except.error (PyErr.exc 7)
    ∧ carriesPath (PyErr.exc 7) "bad.py" = false := ⟨rfl, rfl⟩

/-- C7 (amended): a compile- or execution-time error while loading a
plugin source unit fails the load: the underlying error is logged once and
re-raised unchanged to the caller — no `PluginLoadError` wrapper carrying
the path is created — the failed path is not cached, and the error aborts
the whole `process_args` run when the plugin was registered. -/
theorem c7_load_error_surfaced (w : World) (st : CmdState) (path : String)
    (code : Nat) (e : PyErr)
    (hc : slookup path st.scripts = none)
    (hr : w.readFile path = Except.ok code)
    (he : w.execUnit code = Except.error e) :
    load_script_file w st path =
      (st, [.readEv path, .execEv path, .logged e], Except.error e)
    ∧ (process_args w st (argsWithFilterOnly path)).2.2 = Except.error e := by
  have hload : load_script_file w st path =
      (st, [.readEv path, .execEv path, .logged e], Except.error e) := by
    simp [load_script_file, hc, hr, he]
  refine ⟨hload, ?_⟩
  have hload2 : load_script_file w { st with capture_filter_scripts := [] } path =
      ({ st with capture_filter_scripts := [] },
       [.readEv path, .execEv path, .logged e], Except.error e) := by
    simp [load_script_file, hc, hr, he]
  simp [process_args, argsWithFilterOnly, load_many, hload2]

theorem c7_load_error_surfaced_w :
    load_script_file w7 initState "bad.py" =
      (initState, [Event.readEv "bad.py", Event.execEv "bad.py",
        Event.logged (PyErr.exc 7)], Except.error (PyErr.exc 7))
    ∧ (process_args w7 initState (argsWithFilterOnly "bad.py")).2.2 =
        Except.error (PyErr.exc 7) :=
  c7_load_error_surfaced w7 initState "bad.py" 3 (PyErr.exc 7) rfl rfl rfl

theorem c6_counterexample :
    (collectFunctions ns6).1 = [("capture_filter", 1), ("helper", 2)]
    ∧ claimC6Map ns6 = some [("capture_filter", 1)]
    ∧ some (collectFunctions ns6).1 ≠ claimC6Map ns6 :=
  ⟨rfl, rfl, by decide⟩

theorem dinsert_fresh (m : List (String × FuncId)) (k : String) (v : FuncId)
    (h : ∀ kv ∈ m, kv.1 ≠ k) : dinsert m k v = m ++ [(k, v)] := by
  unfold dinsert
  rw [if_neg]
  intro hc
  rw [List.any_eq_true] at hc
  rcases hc with ⟨kv, hkv, hp⟩
  exact h kv hkv (by simpa using hp)

theorem collectAttrs_fresh :
    ∀ (attrs : List (String × Attr)) (m : List (String × FuncId)),
      (m.map Prod.fst ++ (attrContribs attrs).map Prod.fst).Nodup →
      collectAttrs m attrs = m ++ attrContribs attrs := by
  intro attrs
  induction attrs with
  | nil =>
    intro m h
    simp [collectAttrs, attrContribs]
  | cons a rest ih =>
    intro m h
    rcases a with ⟨k, att⟩
    rcases att with f | _
    · by_cases hu : underscored k = true
      · have hc : attrContribs ((k, Attr.method f) :: rest) = attrContribs rest := by
          simp [attrContribs, hu]
        rw [hc] at h
        calc collectAttrs m ((k, Attr.method f) :: rest)
            = collectAttrs m rest := by simp [collectAttrs, hu]
          _ = m ++ attrContribs rest := ih m h
          _ = m ++ attrContribs ((k, Attr.method f) :: rest) := by rw [hc]
      · have hc : attrContribs ((k, Attr.method f) :: rest) =
            (k, f) :: attrContribs rest := by
          simp [attrContribs, hu]
        rw [hc] at h
        simp only [List.map_cons] at h
        have hk : ∀ kv ∈ m, kv.1 ≠ k := by
          intro kv hkv hkk
          have hmem : k ∈ m.map Prod.fst := List.mem_map.2 ⟨kv, hkv, hkk⟩
          exact (List.nodup_append.1 h).2.2 hmem (by simp)
        have h2 : ((m ++ [(k, f)]).map Prod.fst ++
            (attrContribs rest).map Prod.fst).Nodup := by
          simpa [List.map_append, List.append_assoc] using h
        calc collectAttrs m ((k, Attr.method f) :: rest)
            = collectAttrs (dinsert m k f) rest := by simp [collectAttrs, hu]
          _ = collectAttrs (m ++ [(k, f)]) rest := by rw [dinsert_fresh m k f hk]
          _ = (m ++ [(k, f)]) ++ attrContribs rest := ih _ h2
          _ = m ++ attrContribs ((k, Attr.method f) :: rest) := by
              rw [hc]
              simp
    · have hc : attrContribs ((k, Attr.nonMethod) :: rest) = attrContribs rest := by
        simp [attrContribs]
      rw [hc] at h
      calc collectAttrs m ((k, Attr.nonMethod) :: rest)
          = collectAttrs m rest := by simp [collectAttrs]
        _ = m ++ attrContribs rest := ih m h
        _ = m ++ attrContribs ((k, Attr.nonMethod) :: rest) := by rw [hc]

theorem collect_fold_fresh :
    ∀ (ns : List (String × Binding)) (acc : List (String × FuncId) × Option String),
      (acc.1.map Prod.fst ++ (contribList ns).map Prod.fst).Nodup →
      (ns.foldl collectBinding acc).1 = acc.1 ++ contribList ns := by
  intro ns
  induction ns with
  | nil =>
    intro acc h
    simp [contribList]
  | cons kb rest ih =>
    intro acc h
    rcases kb with ⟨k, b⟩
    rcases b with attrs | f | _
    · have hc : contribList ((k, Binding.typeDef attrs) :: rest) =
          attrContribs attrs ++ contribList rest := by
        simp [contribList]
      rw [hc] at h
      rw [List.map_append, ← List.append_assoc] at h
      have h1 : (acc.1.map Prod.fst ++ (attrContribs attrs).map Prod.fst).Nodup :=
        (List.nodup_append.1 h).1
      have h2 : ((collectAttrs acc.1 attrs).map Prod.fst ++
          (contribList rest).map Prod.fst).Nodup := by
        rw [collectAttrs_fresh attrs acc.1 h1, List.map_append]
        exact h
      calc (((k, Binding.typeDef attrs) :: rest).foldl collectBinding acc).1
          = (rest.foldl collectBinding (collectAttrs acc.1 attrs, some k)).1 := by
            simp [collectBinding]
        _ = collectAttrs acc.1 attrs ++ contribList rest := ih _ h2
        _ = (acc.1 ++ attrContribs attrs) ++ contribList rest := by
            rw [collectAttrs_fresh attrs acc.1 h1]
        _ = acc.1 ++ contribList ((k, Binding.typeDef attrs) :: rest) := by
            rw [hc, List.append_assoc]
    · have hc : contribList ((k, Binding.funcDef f) :: rest) =
          (k, f) :: contribList rest := by
        simp [contribList]
      rw [hc] at h
      simp only [List.map_cons] at h
      have hk : ∀ kv ∈ acc.1, kv.1 ≠ k := by
        intro kv hkv hkk
        have hmem : k ∈ acc.1.map Prod.fst := List.mem_map.2 ⟨kv, hkv, hkk⟩
        exact (List.nodup_append.1 h).2.2 hmem (by simp)
      have h2 : ((acc.1 ++ [(k, f)]).map Prod.fst ++
          (contribList rest).map Prod.fst).Nodup := by
        simpa [List.map_append, List.append_assoc] using h
      calc (((k, Binding.funcDef f) :: rest).foldl collectBinding acc).1
          = (rest.foldl collectBinding (dinsert acc.1 k f, acc.2)).1 := by
            simp [collectBinding]
        _ = (rest.foldl collectBinding (acc.1 ++ [(k, f)], acc.2)).1 := by
            rw [dinsert_fresh acc.1 k f hk]
        _ = (acc.1 ++ [(k, f)]) ++ contribList rest := ih _ h2
        _ = acc.1 ++ contribList ((k, Binding.funcDef f) :: rest) := by
            rw [hc, List.append_assoc]
            simp
    · have hc : contribList ((k, Binding.other) :: rest) = contribList rest := by
        simp [contribList]
      rw [hc] at h
      calc (((k, Binding.other) :: rest).foldl collectBinding acc).1
          = (rest.foldl collectBinding acc).1 := by simp [collectBinding]
        _ = acc.1 ++ contribList rest := ih _ h
        _ = acc.1 ++ contribList ((k, Binding.other) :: rest) := by rw [hc]

/-- C6 (amended): whenever the contributed capability names are pairwise
distinct, the capability map collected by the loader is exactly the
source-order concatenation of (a) each class binding's public
non-underscore bound-method attributes — every class binding is
instantiated and contributes, not only a unique one — and (b) each
top-level function binding; class-instance methods and top-level
functions are collected together, neither excludes the other. -/
theorem c6_capability_collection (ns : List (String × Binding))
    (h : ((contribList ns).map Prod.fst).Nodup) :
    (collectFunctions ns).1 = contribList ns := by
  simpa [collectFunctions] using
    collect_fold_fresh ns ([], none) (by simpa using h)

theorem c6_capability_collection_w :
    (collectFunctions ns6).1 = contribList ns6 :=
  c6_capability_collection ns6 (by decide)

end Raft
